import Mathlib

/-!
Verification of the encounter/persistence core of the Pokédex viewer
(`pokedex_viewer.py`), as a shallow embedding in Lean.

Modelling conventions:
* Python `dict` objects are association lists with first-match lookup and
  update-in-place insertion; JSON object keys are strings, so the key type
  `JKey` distinguishes the `int` keys used by the live process from the
  `str` keys that come back from `json.loads`.
* Python `set` objects are `Finset Nat`.
* The on-disk state of one JSON document is a `DiskDoc`: missing file,
  invalid (unparseable or wrongly shaped) content — both caught by the
  surrounding `try/except` — or a parsed document.
* File-system contents (the sprite/JSON cache directory) are association
  lists from path to file text, newest entry first.
-/

/-- Key of a Python dict that may hold `int` keys (live process) or `str`
keys (anything that went through JSON). -/
inductive JKey
  | int (n : Nat)
  | str (s : String)
deriving DecidableEq, Repr

/-- Lookup in a Python dict modelled as an association list (first match). -/
def dictGet : List (JKey × String) → JKey → Option String
  | [], _ => none
  | (k', v') :: rest, k => if k' = k then some v' else dictGet rest k

/-- Python dict assignment `m[k] = v`: update the existing binding in place,
or append a new one. -/
def dictSet : List (JKey × String) → JKey → String → List (JKey × String)
  | [], k, v => [(k, v)]
  | (k', v') :: rest, k, v =>
    if k' = k then (k, v) :: rest else (k', v') :: dictSet rest k v

/-- One shiny-history entry (the dict built in `apply_card`, lines 306-311). -/
structure ShinyEntry where
  dex : String
  name : String
  time : String
  date : String
deriving DecidableEq, Repr

/-- The in-memory encounter ledger: `self.encounters`, `self.encounter_ids`,
`self.id_to_name` of `PokedexViewer`. -/
structure LedgerState where
  encounters : List String
  encounter_ids : Finset Nat
  id_to_name : List (JKey × String)
deriving DecidableEq

/-- Ledger with no history. -/
def emptyLedger : LedgerState := ⟨[], ∅, []⟩

/-- One encounter result as delivered to `apply_card` (the fields that touch
persistent state; purely visual arguments are omitted). `now`, `timeStr` and
`dateStr` stand for `datetime.now(UK_TZ)` and its two formatted renderings at
the moment the card is applied. -/
structure AppEvent where
  pid : Nat
  dex : String
  name : String
  shiny : Bool
  now : Nat
  timeStr : String
  dateStr : String
deriving DecidableEq, Repr

/-- Ledger mutation of `apply_card` (lines 284-286): append the display name,
add the id to the seen-set, and point `id_to_name[pid]` at the new name. -/
def apply_card_ledger (st : LedgerState) (pid : Nat) (name : String) : LedgerState :=
  { encounters := st.encounters ++ [name]
    encounter_ids := insert pid st.encounter_ids
    id_to_name := dictSet st.id_to_name (JKey.int pid) name }

/-- Apply a whole sequence of encounters to a ledger, oldest first. -/
def record_all (st : LedgerState) (calls : List AppEvent) : LedgerState :=
  calls.foldl (fun s e => apply_card_ledger s e.pid e.name) st

/-- Display name of the most recent encounter with a given id, if any. -/
def lastNameFor (calls : List AppEvent) (id : Nat) : Option String :=
  ((calls.filter (fun e => e.pid = id)).map AppEvent.name).getLast?

/-- State of one JSON document on disk, as seen through `json.loads` plus the
shape accesses guarded by `try/except` in the loaders. -/
inductive DiskDoc (α : Type)
  | missing
  | invalid
  | parsed (d : α)
deriving DecidableEq

/-- Shape of the encounter-log document (`encounter_data.json`): JSON object
keys are strings, so `names_by_id` maps strings to strings. -/
structure EncDoc where
  names : List String
  ids : List Nat
  names_by_id : List (String × String)
deriving DecidableEq, Repr

/-- The loader `load_encounter_data` (lines 82-90): any failure of the read,
the parse or the shape accesses is caught and yields the empty state. -/
def load_encounter_data : DiskDoc EncDoc → LedgerState
  | DiskDoc.missing => ⟨[], ∅, []⟩
  | DiskDoc.invalid => ⟨[], ∅, []⟩
  | DiskDoc.parsed d =>
    ⟨d.names, d.ids.toFinset, d.names_by_id.map (fun kv => (JKey.str kv.1, kv.2))⟩

/-- The loader `load_shiny_history` (lines 68-72). -/
def load_shiny_history : DiskDoc (List ShinyEntry) → List ShinyEntry
  | DiskDoc.missing => []
  | DiskDoc.invalid => []
  | DiskDoc.parsed h => h

/-- What `json.dumps` makes of the ledger in `save_encounter_data`
(lines 95-99): the set becomes a list and every `int` dict key becomes its
decimal string, because JSON object keys are strings. -/
def keyText : JKey → String
  | JKey.int n => toString n
  | JKey.str s => s

/-- Enumeration of a `Finset Nat` in ascending order (insertion sort so that
the definition evaluates by kernel reduction). -/
def setToList (s : Finset Nat) : List Nat :=
  Quotient.liftOn s.val (List.insertionSort (· ≤ ·)) (fun a b h =>
    List.eq_of_perm_of_sorted
      ((List.perm_insertionSort _ a).trans (h.trans (List.perm_insertionSort _ b).symm))
      (List.sorted_insertionSort _ a) (List.sorted_insertionSort _ b))

/-- Document written by `save_encounter_data` for a given in-memory ledger.
Python serialises `list(ids)` in an arbitrary order; the model picks the
ascending one. -/
def dump_enc_doc (st : LedgerState) : EncDoc :=
  ⟨st.encounters, setToList st.encounter_ids,
    st.id_to_name.map (fun kv => (keyText kv.1, kv.2))⟩

/-- The state the viewer keeps across encounters that the persistence claims
talk about: ledger, shiny history, and the in-session time of the last shiny.
Widget-only state (labels, pixmaps, timers) is not part of the model. -/
structure AppState where
  ledger : LedgerState
  shiny_history : List ShinyEntry
  last_shiny_time : Option Nat
deriving DecidableEq

/-- Start-up state from `PokedexViewer.__init__` (lines 142-147): both
documents are loaded, and `last_shiny_time` is set to `None` unconditionally —
no timestamp is reconstructed from the stored entries. -/
def init_viewer (dl : DiskDoc EncDoc) (ds : DiskDoc (List ShinyEntry)) : AppState :=
  { ledger := load_encounter_data dl
    shiny_history := load_shiny_history ds
    last_shiny_time := none }

/-- State transition of `apply_card` (lines 282-322): the ledger mutation
always happens; on a shiny the entry built from the current wall time is
appended to the history and `last_shiny_time` becomes that time. -/
def apply_card_full (st : AppState) (ev : AppEvent) : AppState :=
  let ledger2 := apply_card_ledger st.ledger ev.pid ev.name
  if ev.shiny then
    { ledger := ledger2
      shiny_history := st.shiny_history ++ [⟨ev.dex, ev.name, ev.timeStr, ev.dateStr⟩]
      last_shiny_time := some ev.now }
  else
    { st with ledger := ledger2 }

/-- Run one whole session: apply a list of encounter results in order. -/
def run_session (st : AppState) (evs : List AppEvent) : AppState :=
  evs.foldl apply_card_full st

/-- Duration reported by `update_shiny_delay` (lines 348-357): `None` when
`last_shiny_time` is unset, otherwise `now - last_shiny_time` (in seconds). -/
def timeSinceLast (st : AppState) (now : Nat) : Option Int :=
  match st.last_shiny_time with
  | none => none
  | some t => some ((now : Int) - t)

/-- Number of dex-grid slots: ids 1..`MAX_ID` each get one cell. -/
def MAX_ID : Nat := 493

/-- Tooltip text of every dex cell, indexed by id. Only ids in `[1, MAX_ID]`
have a cell; the map `dex_cells.get` is modelled by the range guard in
`append_shiny_tooltip`. -/
def initTooltips : Nat → String := fun _ => "No shiny encountered yet."

/-- Python `str.splitlines` on the strings this program builds (no trailing
newline, so only the empty-string case differs from `splitOn`). -/
def splitLinesPy (s : String) : List String :=
  if s = "" then [] else s.splitOn "\n"

/-- The method `_append_shiny_tooltip` (lines 336-345): ids without a cell
are a no-op via `dex_cells.get(pid, (None, None, None))`; otherwise the
placeholder first line is dropped and the formatted timestamp appended. -/
def append_shiny_tooltip (tt : Nat → String) (pid : Nat) (entry : ShinyEntry) :
    Nat → String :=
  if 1 ≤ pid ∧ pid ≤ MAX_ID then
    fun q =>
      if q = pid then
        let existing := splitLinesPy (tt pid)
        let existing :=
          if existing ≠ [] ∧ (existing.headD "").startsWith "No shiny" then []
          else existing
        String.intercalate "\n" (existing ++ [entry.time ++ " – " ++ entry.date])
      else tt q
  else tt

/-- Lookup of a file in the cache directory (first match wins). -/
def cacheLookup : List (String × String) → String → Option String
  | [], _ => none
  | (p, v) :: rest, path => if p = path then some v else cacheLookup rest path

/-- Writing a file: the new content shadows any older entry for the path. -/
def cacheWrite (fs : List (String × String)) (path content : String) :
    List (String × String) :=
  (path, content) :: fs

/-- Outcome of one HTTP request: transport error (`requests.get` raises),
non-success status, or a success carrying the body. -/
inductive HResp
  | netErr
  | badStatus (body : String)
  | ok (body : String)
deriving DecidableEq, Repr

/-- The exception kinds a fetch can raise: a transport error, the
`raise_for_status` error, or a JSON decode error. -/
inductive FetchErr
  | network
  | httpStatus
  | decodeErr
deriving DecidableEq, Repr

/-- The helper `fetch_json` (lines 30-36). The third component counts remote
requests issued (0 or 1). Note the source order: on a cache miss with a
successful response the body is written to the cache file before `r.json()`
parses it. `parse` stands for `json.loads` composed with whatever shape the
caller reads. -/
def fetch_json {α : Type} (parse : String → Option α)
    (fs : List (String × String)) (path : String) (resp : HResp) :
    Except FetchErr α × List (String × String) × Nat :=
  match cacheLookup fs path with
  | some text =>
    match parse text with
    | some v => (Except.ok v, fs, 0)
    | none => (Except.error FetchErr.decodeErr, fs, 0)
  | none =>
    match resp with
    | HResp.netErr => (Except.error FetchErr.network, fs, 1)
    | HResp.badStatus _ => (Except.error FetchErr.httpStatus, fs, 1)
    | HResp.ok body =>
      match parse body with
      | some v => (Except.ok v, cacheWrite fs path body, 1)
      | none => (Except.error FetchErr.decodeErr, cacheWrite fs path body, 1)

/-- Fields of the profile document that `get_pokemon` reads. -/
structure PokemonData where
  name : String
  types : List String
  sprite_front_default : Option String
  sprite_front_shiny : Option String
deriving DecidableEq, Repr

/-- One flavor-text entry of the species document. -/
structure FlavorEntry where
  flavor_text : String
  language : String
deriving DecidableEq, Repr

/-- Fields of the species document that `get_pokemon` reads. -/
structure SpeciesData where
  flavor_text_entries : List FlavorEntry
deriving DecidableEq, Repr

/-- Cache path of the profile document for an id. -/
def pokemon_path (pid : Nat) : String := "pokemon_" ++ toString pid ++ ".json"

/-- Cache path of the species document for an id. -/
def species_path (pid : Nat) : String := "species_" ++ toString pid ++ ".json"

/-- Cache file name of the sprite, distinguishing shiny from normal. -/
def sprite_tag (pid : Nat) (shiny : Bool) : String :=
  toString pid ++ "_" ++ (if shiny then "shiny" else "normal") ++ ".png"

/-- Python `str.capitalize`: first character upper-cased, the rest lowered. -/
def capitalizePy (s : String) : String :=
  match s.data with
  | [] => ""
  | c :: rest => String.mk (c.toUpper :: rest.map Char.toLower)

/-- Zero-padded three-digit rendering used by `f"#{pid:03d}"`. -/
def pad3 (n : Nat) : String :=
  let s := toString n
  if s.length < 3 then String.mk (List.replicate (3 - s.length) '0') ++ s else s

/-- Python single-character `str.replace`, which maps every occurrence. -/
def replaceChar (pat rep : Char) (s : String) : String :=
  String.mk (s.data.map (fun c => if c = pat then rep else c))

/-- Characters Python `str.strip` removes by default (ASCII range). -/
def pyIsSpace (c : Char) : Bool :=
  c = ' ' || c = '\t' || c = '\n' || c = '\x0d' || c = '\x0b' || c = '\x0c'

/-- Python `str.strip` with no arguments. -/
def pyStrip (s : String) : String :=
  String.mk (((s.data.dropWhile pyIsSpace).reverse.dropWhile pyIsSpace).reverse)

/-- Normalisation applied to the chosen flavor text (line 52):
`.replace("\n", " ").replace("\f", " ").strip()`. -/
def normalize_flavor (s : String) : String :=
  pyStrip (replaceChar '\x0c' ' ' (replaceChar '\n' ' ' s))

/-- Flavor-text selection (lines 50-53): keep the entries tagged `"en"`,
pick one (`random.choice` modelled by an arbitrary index taken modulo the
length), normalise it; fall back to the fixed placeholder when none exist. -/
def select_flavor (entries : List FlavorEntry) (choice : Nat) : String :=
  match (entries.filter (fun e => e.language == "en")).map FlavorEntry.flavor_text with
  | [] => "(No flavor text found)"
  | fs => normalize_flavor (fs.getD (choice % fs.length) "")

/-- Sprite reference chosen at line 55. -/
def sprite_url_of (d : PokemonData) (shiny : Bool) : Option String :=
  if shiny then d.sprite_front_shiny else d.sprite_front_default

/-- Sprite download (lines 59-62): skipped when the URL is absent or the file
already exists; a transport error raises out of `get_pokemon`; a non-success
status (`img.ok` false) is silently tolerated and nothing is written. -/
def sprite_fetch (fs : List (String × String)) (url : Option String)
    (tag : String) (resp : HResp) :
    Except FetchErr Unit × List (String × String) × Nat :=
  match url with
  | none => (Except.ok (), fs, 0)
  | some _ =>
    match cacheLookup fs tag with
    | some _ => (Except.ok (), fs, 0)
    | none =>
      match resp with
      | HResp.netErr => (Except.error FetchErr.network, fs, 1)
      | HResp.badStatus _ => (Except.ok (), fs, 1)
      | HResp.ok bytes => (Except.ok (), cacheWrite fs tag bytes, 1)

/-- One generation attempt, `get_pokemon` (lines 39-64). `pid`, `shiny` and
`flavorChoice` stand for the three random draws; the three `HResp` arguments
are the network's answers to the (at most three) remote requests. The result
carries the final cache state and the number of remote requests issued. -/
def get_pokemon (fs : List (String × String))
    (parseP : String → Option PokemonData) (parseS : String → Option SpeciesData)
    (pid : Nat) (shiny : Bool) (flavorChoice : Nat)
    (respP respS respSprite : HResp) :
    Except FetchErr (Nat × String × String × String × String × String × Bool) ×
      List (String × String) × Nat :=
  match fetch_json parseP fs (pokemon_path pid) respP with
  | (Except.error e, fs1, n1) => (Except.error e, fs1, n1)
  | (Except.ok data, fs1, n1) =>
    match fetch_json parseS fs1 (species_path pid) respS with
    | (Except.error e, fs2, n2) => (Except.error e, fs2, n1 + n2)
    | (Except.ok species, fs2, n2) =>
      let name := capitalizePy data.name
      let types := String.intercalate "/" (data.types.map capitalizePy)
      let dex := "#" ++ pad3 pid
      let flavor := select_flavor species.flavor_text_entries flavorChoice
      let tag := sprite_tag pid shiny
      match sprite_fetch fs2 (sprite_url_of data shiny) tag respSprite with
      | (Except.error e, fs3, n3) => (Except.error e, fs3, n1 + n2 + n3)
      | (Except.ok _, fs3, n3) =>
        (Except.ok (pid, dex, name, types, flavor, tag, shiny), fs3, n1 + n2 + n3)

/-- Path of the shiny-history document. -/
def HISTORY_FILE : String := "shiny_seen.json"

/-- Path of the encounter-log document. -/
def ENCOUNTER_LOG : String := "encounter_data.json"

/-- First `k` characters of a string. -/
def strTake (k : Nat) (s : String) : String := String.mk (s.data.take k)

/-- Outcome of one `Path.write_text` call: either it completes, or the I/O
layer fails after `k` characters reached the (already truncated) file. -/
inductive WriteOutcome
  | success
  | failAfter (k : Nat)
deriving DecidableEq, Repr

/-- Python `Path.write_text`: open with truncation, then write. On an I/O
failure after `k` characters the file holds a bare prefix of the content. -/
def write_text (fs : List (String × String)) (path content : String) :
    WriteOutcome → List (String × String)
  | WriteOutcome.success => cacheWrite fs path content
  | WriteOutcome.failAfter k => cacheWrite fs path (strTake k content)

/-- JSON string literal (escaping is immaterial to the claims). -/
def jstr (s : String) : String := "\x22" ++ s ++ "\x22"

/-- JSON list from already-rendered elements. -/
def jlist (xs : List String) : String :=
  "[" ++ String.intercalate ", " xs ++ "]"

/-- Serialised form of one shiny entry. The exact layout `json.dumps` picks
(indentation etc.) is immaterial; only that the document is one string
written in a single pass matters to the claims. -/
def dumps_shiny_entry (e : ShinyEntry) : String :=
  "\x7b" ++ jstr "dex" ++ ": " ++ jstr e.dex ++ ", " ++ jstr "name" ++ ": " ++
    jstr e.name ++ ", " ++ jstr "time" ++ ": " ++ jstr e.time ++ ", " ++
    jstr "date" ++ ": " ++ jstr e.date ++ "\x7d"

/-- Serialised shiny-history document. -/
def dumps_shiny (h : List ShinyEntry) : String := jlist (h.map dumps_shiny_entry)

/-- Serialised encounter-log document. -/
def dumps_enc (d : EncDoc) : String :=
  "\x7b" ++ jstr "names" ++ ": " ++ jlist (d.names.map jstr) ++ ", " ++
    jstr "ids" ++ ": " ++ jlist (d.ids.map toString) ++ ", " ++
    jstr "names_by_id" ++ ": \x7b" ++
    String.intercalate ", " (d.names_by_id.map (fun kv => jstr kv.1 ++ ": " ++ jstr kv.2)) ++
    "\x7d\x7d"

/-- The saver `save_shiny_history` (lines 75-79): one direct `write_text` to
the final path; any exception is swallowed by the bare `except: pass`. -/
def save_shiny_history (fs : List (String × String)) (hist : List ShinyEntry)
    (oc : WriteOutcome) : List (String × String) :=
  write_text fs HISTORY_FILE (dumps_shiny hist) oc

/-- The saver `save_encounter_data` (lines 93-101): same single direct write. -/
def save_encounter_data (fs : List (String × String)) (st : LedgerState)
    (oc : WriteOutcome) : List (String × String) :=
  write_text fs ENCOUNTER_LOG (dumps_enc (dump_enc_doc st)) oc

/-- Membership of the newline/form-feed class the spec talks about. -/
def isNLFF (c : Char) : Bool := c = '\n' || c = '\x0c'

/-- Helper for `collapse_spec`: the flag records whether the previous
character already emitted the space for the current run. -/
def collapseGo : Bool → List Char → List Char
  | _, [] => []
  | prev, c :: rest =>
    if isNLFF c then
      if prev then collapseGo true rest else ' ' :: collapseGo true rest
    else c :: collapseGo false rest

/-- Modelled from the spec: the normalisation the spec describes — "every
internal run of newlines/form-feeds collapses to a single space" followed by
trimming — stated for comparison with the code's `normalize_flavor`. -/
def collapse_spec (s : String) : String :=
  pyStrip (String.mk (collapseGo false s.data))

/-- C2: a missing, truncated or otherwise invalid on-disk document makes
`load_encounter_data` return the empty ledger and `load_shiny_history` the
empty sequence; neither loader can raise (both are total functions). -/
theorem load_degrades_to_empty :
    load_encounter_data DiskDoc.missing = emptyLedger
    ∧ load_encounter_data DiskDoc.invalid = emptyLedger
    ∧ load_shiny_history DiskDoc.missing = []
    ∧ load_shiny_history DiskDoc.invalid = [] :=
  ⟨rfl, rfl, rfl, rfl⟩

/-- C3: persisting the ledger `record(25, "Pikachu")` and loading it back
does not return an equal ledger — the `idToName` key comes back as the
string `"25"` instead of the integer `25`, so the lookup the viewer itself
performs at start-up (`if pid in self.id_to_name`, line 272) finds nothing. -/
theorem save_load_key_type_bug :
    load_encounter_data
        (DiskDoc.parsed (dump_enc_doc (apply_card_ledger emptyLedger 25 "Pikachu")))
      ≠ apply_card_ledger emptyLedger 25 "Pikachu"
    ∧ dictGet (load_encounter_data
        (DiskDoc.parsed (dump_enc_doc
          (apply_card_ledger emptyLedger 25 "Pikachu")))).id_to_name
        (JKey.int 25) = none
    ∧ dictGet (apply_card_ledger emptyLedger 25 "Pikachu").id_to_name
        (JKey.int 25) = some "Pikachu"
    ∧ (load_encounter_data
        (DiskDoc.parsed (dump_enc_doc
          (apply_card_ledger emptyLedger 25 "Pikachu")))).encounters
      = (apply_card_ledger emptyLedger 25 "Pikachu").encounters
    ∧ (load_encounter_data
        (DiskDoc.parsed (dump_enc_doc
          (apply_card_ledger emptyLedger 25 "Pikachu")))).encounter_ids
      = (apply_card_ledger emptyLedger 25 "Pikachu").encounter_ids := by
  decide

/-- C10: replaying a persisted shiny entry whose dex id has no dex-grid slot
(an id outside `[1, MAX_ID]`) leaves every tooltip unchanged and cannot
raise, because `dex_cells.get` falls back to `None`. -/
theorem out_of_range_shiny_noop (tt : Nat → String) (pid : Nat)
    (entry : ShinyEntry) (h : pid < 1 ∨ MAX_ID < pid) :
    append_shiny_tooltip tt pid entry = tt := by
  unfold append_shiny_tooltip
  rw [if_neg]
  rintro ⟨h1, h2⟩
  rcases h with h | h <;> omega

/-- Witness for `out_of_range_shiny_noop` at id 494, one past `MAX_ID`. -/
theorem out_of_range_shiny_noop_witness :
    append_shiny_tooltip initTooltips 494 ⟨"#494", "Arceus", "1:00 AM", "02/02/2024"⟩
      = initTooltips :=
  out_of_range_shiny_noop initTooltips 494 ⟨"#494", "Arceus", "1:00 AM", "02/02/2024"⟩
    (Or.inr (by decide))

/-- C6: a cache hit returns the stored entry without any remote request and
leaves the cache alone; a miss issues exactly one request, stores the raw
body verbatim, and a repeat request for the same key — whatever the network
would answer the second time — issues zero further requests. -/
theorem cache_get_or_fetch_spec {α : Type} (parse : String → Option α)
    (fs : List (String × String)) (path : String) (resp : HResp) :
    (∀ text v, cacheLookup fs path = some text → parse text = some v →
      fetch_json parse fs path resp = (Except.ok v, fs, 0))
    ∧ (∀ body v, cacheLookup fs path = none → resp = HResp.ok body →
        parse body = some v →
        fetch_json parse fs path resp = (Except.ok v, cacheWrite fs path body, 1)
        ∧ cacheLookup (cacheWrite fs path body) path = some body
        ∧ ∀ resp2, fetch_json parse (cacheWrite fs path body) path resp2
            = (Except.ok v, cacheWrite fs path body, 0)) := by
  constructor
  · intro text v hl hp
    simp [fetch_json, hl, hp]
  · intro body v hl hr hp
    subst hr
    refine ⟨by simp [fetch_json, hl, hp], by simp [cacheLookup, cacheWrite], ?_⟩
    intro resp2
    simp [fetch_json, cacheLookup, cacheWrite, hp]

/-- Witness for `cache_get_or_fetch_spec`: one miss then one hit on the
profile key for id 1. -/
theorem cache_get_or_fetch_spec_witness :
    fetch_json (fun s => some s) [] "pokemon_1.json" (HResp.ok "BODY")
      = (Except.ok "BODY", cacheWrite [] "pokemon_1.json" "BODY", 1)
    ∧ fetch_json (fun s => some s) (cacheWrite [] "pokemon_1.json" "BODY")
        "pokemon_1.json" HResp.netErr
      = (Except.ok "BODY", cacheWrite [] "pokemon_1.json" "BODY", 0) := by
  have h := (cache_get_or_fetch_spec (fun s => some s) [] "pokemon_1.json"
    (HResp.ok "BODY")).2 "BODY" "BODY" rfl rfl rfl
  exact ⟨h.1, h.2.2 HResp.netErr⟩

/-- C7: on an uncached key, a transport error or a non-success status is
returned to the caller as the corresponding error and the cache is exactly
the one passed in — no entry, partial or otherwise, is created. -/
theorem fetch_failure_no_cache_write {α : Type} (parse : String → Option α)
    (fs : List (String × String)) (path : String)
    (h : cacheLookup fs path = none) :
    fetch_json parse fs path HResp.netErr
      = (Except.error FetchErr.network, fs, 1)
    ∧ ∀ body, fetch_json parse fs path (HResp.badStatus body)
        = (Except.error FetchErr.httpStatus, fs, 1) := by
  refine ⟨by simp [fetch_json, h], fun body => by simp [fetch_json, h]⟩

/-- Witness for `fetch_failure_no_cache_write` on an empty cache. -/
theorem fetch_failure_no_cache_write_witness :
    fetch_json (fun s => some s) [] "species_9.json" HResp.netErr
      = (Except.error FetchErr.network, [], 1)
    ∧ fetch_json (fun s => some s) [] "species_9.json" (HResp.badStatus "500")
      = (Except.error FetchErr.httpStatus, [], 1) := by
  have h := fetch_failure_no_cache_write (fun s => some s) [] "species_9.json" rfl
  exact ⟨h.1, h.2 "500"⟩

/-- C9 (amended): both savers perform one direct truncating write to the
final path. On success the file holds the complete new document; on an I/O
failure after `k` characters the file holds exactly the first `k` characters
of the new document — a bare, possibly half-written, prefix — and the
swallowed exception leaves the saver returning normally. -/
theorem save_write_behavior_amended (fs : List (String × String))
    (hist : List ShinyEntry) (st : LedgerState) (k : Nat) :
    save_shiny_history fs hist WriteOutcome.success
      = cacheWrite fs HISTORY_FILE (dumps_shiny hist)
    ∧ save_shiny_history fs hist (WriteOutcome.failAfter k)
      = cacheWrite fs HISTORY_FILE (strTake k (dumps_shiny hist))
    ∧ (dumps_shiny hist).data
      = (strTake k (dumps_shiny hist)).data ++ (dumps_shiny hist).data.drop k
    ∧ save_encounter_data fs st WriteOutcome.success
      = cacheWrite fs ENCOUNTER_LOG (dumps_enc (dump_enc_doc st))
    ∧ save_encounter_data fs st (WriteOutcome.failAfter k)
      = cacheWrite fs ENCOUNTER_LOG (strTake k (dumps_enc (dump_enc_doc st))) := by
  refine ⟨rfl, rfl, ?_, rfl, rfl⟩
  exact (List.take_append_drop k (dumps_shiny hist).data).symm

/-- C9 (counterexample): saving a two-entry shiny history over a one-entry
document with a failure after 6 characters leaves `"[\x7b\x22dex"` on disk —
neither the complete previous document nor the complete new one. -/
theorem save_partial_write_counterexample :
    cacheLookup
        (save_shiny_history
          [(HISTORY_FILE, dumps_shiny [⟨"#006", "Charizard", "2:15 PM", "01/01/2024"⟩])]
          [⟨"#006", "Charizard", "2:15 PM", "01/01/2024"⟩,
            ⟨"#025", "Pikachu", "3:30 PM", "02/01/2024"⟩]
          (WriteOutcome.failAfter 6))
        HISTORY_FILE
      = some "[\x7b\x22dex"
    ∧ "[\x7b\x22dex"
      ≠ dumps_shiny [⟨"#006", "Charizard", "2:15 PM", "01/01/2024"⟩]
    ∧ "[\x7b\x22dex"
      ≠ dumps_shiny [⟨"#006", "Charizard", "2:15 PM", "01/01/2024"⟩,
          ⟨"#025", "Pikachu", "3:30 PM", "02/01/2024"⟩] := by
  decide

/-- C8 (counterexample): the flavor text `"A\n\nB"` comes out of the code as
`"A  B"` — each newline becomes its own space — while collapsing the run to
a single space, as the claim states, would give `"A B"`. -/
theorem flavor_collapse_counterexample :
    select_flavor [⟨"A\n\nB", "en"⟩] 0 = "A  B"
    ∧ collapse_spec "A\n\nB" = "A B"
    ∧ select_flavor [⟨"A\n\nB", "en"⟩] 0 ≠ collapse_spec "A\n\nB" := by
  decide

/-- C8 (amended): with no entry tagged with the configured language the fixed
placeholder is substituted; otherwise the selected entry is drawn from the
language-filtered list and normalised by replacing every newline and
form-feed character with one space each (a run of `k` of them becomes `k`
spaces, not one) and trimming both ends. -/
theorem flavor_normalization_amended (entries : List FlavorEntry)
    (choice : Nat) (s : String) :
    (entries.filter (fun e => e.language == "en") = [] →
      select_flavor entries choice = "(No flavor text found)")
    ∧ (∀ t ts,
        (entries.filter (fun e => e.language == "en")).map FlavorEntry.flavor_text
          = t :: ts →
        select_flavor entries choice
          = normalize_flavor ((t :: ts).getD (choice % (t :: ts).length) "")
        ∧ (t :: ts).getD (choice % (t :: ts).length) "" ∈ t :: ts)
    ∧ normalize_flavor s
      = pyStrip (String.mk (s.data.map
          (fun c => if c = '\n' ∨ c = '\x0c' then ' ' else c))) := by
  refine ⟨?_, ?_, ?_⟩
  · intro h
    simp [select_flavor, h]
  · intro t ts h
    constructor
    · simp [select_flavor, h]
    · have hlt : choice % (t :: ts).length < (t :: ts).length :=
        Nat.mod_lt _ (by simp)
      rw [List.getD_eq_getElem _ _ hlt]
      exact List.getElem_mem hlt
  · unfold normalize_flavor replaceChar
    congr 1
    simp only [List.map_map]
    have hf : ((fun c => if c = '\x0c' then ' ' else c) ∘ fun c => if c = '\n' then ' ' else c)
        = fun c => if c = '\n' ∨ c = '\x0c' then ' ' else c := by
      funext c
      simp only [Function.comp_apply]
      by_cases h1 : c = '\n'
      · subst h1; decide
      · by_cases h2 : c = '\x0c'
        · subst h2; decide
        · simp [h1, h2]
    rw [hf]

/-- Witness for `flavor_normalization_amended`: the placeholder case on a
French-only species and the selection case on a one-entry English species. -/
theorem flavor_normalization_amended_witness :
    select_flavor [⟨"Bonjour", "fr"⟩] 0 = "(No flavor text found)"
    ∧ select_flavor [⟨"X\nY", "en"⟩] 0 = normalize_flavor "X\nY" := by
  have h1 := (flavor_normalization_amended [⟨"Bonjour", "fr"⟩] 0 "").1 (by decide)
  have h2 := ((flavor_normalization_amended [⟨"X\nY", "en"⟩] 0 "").2.1 "X\nY" []
    (by decide)).1
  exact ⟨h1, h2⟩

/-- C5: abort behaviour of one generation attempt. A network error or a
parse (JSON decode) failure — at the profile fetch, the species fetch, or
the sprite download — makes `get_pokemon` return that single error, and the
`Except` result means no record accompanies it: the worker then emits only
the error signal. (A non-success HTTP status on the two JSON fetches aborts
as well, via `raise_for_status`.) -/
theorem generation_abort_on_failure (fs : List (String × String))
    (parseP : String → Option PokemonData) (parseS : String → Option SpeciesData)
    (pid : Nat) (shiny : Bool) (fc : Nat) (respP respS respSprite : HResp) :
    (∀ e fs1 n1,
      fetch_json parseP fs (pokemon_path pid) respP = (Except.error e, fs1, n1) →
      (get_pokemon fs parseP parseS pid shiny fc respP respS respSprite).1
        = Except.error e)
    ∧ (∀ d fs1 n1 e fs2 n2,
        fetch_json parseP fs (pokemon_path pid) respP = (Except.ok d, fs1, n1) →
        fetch_json parseS fs1 (species_path pid) respS = (Except.error e, fs2, n2) →
        (get_pokemon fs parseP parseS pid shiny fc respP respS respSprite).1
          = Except.error e)
    ∧ (∀ d fs1 n1 s fs2 n2,
        fetch_json parseP fs (pokemon_path pid) respP = (Except.ok d, fs1, n1) →
        fetch_json parseS fs1 (species_path pid) respS = (Except.ok s, fs2, n2) →
        sprite_url_of d shiny ≠ none →
        cacheLookup fs2 (sprite_tag pid shiny) = none →
        respSprite = HResp.netErr →
        (get_pokemon fs parseP parseS pid shiny fc respP respS respSprite).1
          = Except.error FetchErr.network) := by
  refine ⟨?_, ?_, ?_⟩
  · intro e fs1 n1 h
    simp only [get_pokemon, h]
  · intro d fs1 n1 e fs2 n2 h1 h2
    simp only [get_pokemon, h1, h2]
  · intro d fs1 n1 s fs2 n2 h1 h2 hu hl hr
    subst hr
    obtain ⟨u, hu2⟩ := Option.ne_none_iff_exists.mp hu
    simp only [get_pokemon, h1, h2, sprite_fetch, ← hu2, hl]

/-- Witness for `generation_abort_on_failure`: a transport error on the
sprite download of an uncached normal sprite aborts the attempt. -/
theorem generation_abort_on_failure_witness :
    (get_pokemon []
        (fun _ => some ⟨"bulbasaur", ["grass", "poison"], some "urlN", some "urlS"⟩)
        (fun _ => some ⟨[⟨"Seed.", "en"⟩]⟩) 1 false 0
        (HResp.ok "x") (HResp.ok "y") HResp.netErr).1
      = Except.error FetchErr.network := by
  exact (generation_abort_on_failure []
      (fun _ => some ⟨"bulbasaur", ["grass", "poison"], some "urlN", some "urlS"⟩)
      (fun _ => some ⟨[⟨"Seed.", "en"⟩]⟩) 1 false 0
      (HResp.ok "x") (HResp.ok "y") HResp.netErr).2.2
    ⟨"bulbasaur", ["grass", "poison"], some "urlN", some "urlS"⟩
    [("pokemon_1.json", "x")] 1
    ⟨[⟨"Seed.", "en"⟩]⟩
    [("species_1.json", "y"), ("pokemon_1.json", "x")] 1
    rfl rfl (by decide) (by decide) rfl

/-- The fold of `record_all` peels its last call. -/
theorem record_all_concat (st : LedgerState) (l : List AppEvent) (e : AppEvent) :
    record_all st (l ++ [e]) = apply_card_ledger (record_all st l) e.pid e.name := by
  simp [record_all, List.foldl_append]

/-- Lookup after a dict assignment: the assigned key reads back the new
value, every other key is untouched. -/
theorem dictGet_dictSet (m : List (JKey × String)) (k k2 : JKey) (v : String) :
    dictGet (dictSet m k v) k2 = if k = k2 then some v else dictGet m k2 := by
  induction m with
  | nil => simp [dictSet, dictGet]
  | cons hd tl ih =>
    obtain ⟨k', v'⟩ := hd
    by_cases h : k' = k
    · subst h
      by_cases h2 : k' = k2 <;> simp [dictSet, dictGet, h2]
    · by_cases h2 : k' = k2
      · subst h2
        have hne : ¬ k = k' := fun hh => h hh.symm
        simp [dictSet, dictGet, h, hne]
      · simp [dictSet, dictGet, h, h2, ih]

/-- The last-name projection also peels its last call. -/
theorem lastNameFor_concat (l : List AppEvent) (e : AppEvent) (id : Nat) :
    lastNameFor (l ++ [e]) id
      = if e.pid = id then some e.name else lastNameFor l id := by
  by_cases h : e.pid = id
  · simp [lastNameFor, List.filter_append, h, List.getLast?_append_cons]
  · simp [lastNameFor, List.filter_append, h]

/-- C1: starting from the empty ledger, any sequence of recorded encounters
leaves `encounterNames` equal to the names in order (so its length is the
number of calls), `seenIds` equal to the set of recorded ids, and
`idToName[id]` equal to the display name of the most recent encounter with
that id. -/
theorem encounter_ledger_invariant (calls : List AppEvent) :
    (record_all emptyLedger calls).encounters = calls.map AppEvent.name
    ∧ (record_all emptyLedger calls).encounters.length = calls.length
    ∧ (record_all emptyLedger calls).encounter_ids
      = (calls.map AppEvent.pid).toFinset
    ∧ ∀ id, dictGet (record_all emptyLedger calls).id_to_name (JKey.int id)
        = lastNameFor calls id := by
  induction calls using List.reverseRecOn with
  | nil => exact ⟨rfl, rfl, rfl, fun id => rfl⟩
  | append_singleton l e ih =>
    obtain ⟨h1, h2, h3, h4⟩ := ih
    rw [record_all_concat]
    refine ⟨?_, ?_, ?_, fun id => ?_⟩
    · simp [apply_card_ledger, h1]
    · simp [apply_card_ledger, h2]
    · simp only [apply_card_ledger, h3, List.map_append, List.map_cons, List.map_nil]
      ext a
      simp [or_comm]
    · show dictGet (dictSet (record_all emptyLedger l).id_to_name
          (JKey.int e.pid) e.name) (JKey.int id) = _
      rw [dictGet_dictSet, lastNameFor_concat]
      by_cases h : e.pid = id
      · simp [h]
      · simp [h, h4 id]

/-- The session fold peels its last event. -/
theorem run_session_concat (st : AppState) (l : List AppEvent) (e : AppEvent) :
    run_session st (l ++ [e]) = apply_card_full (run_session st l) e := by
  simp [run_session, List.foldl_append]

/-- In a session that starts with no in-session shiny time, the time stays
unset exactly while no shiny has been applied. -/
theorem run_session_last_shiny (st : AppState) (hst : st.last_shiny_time = none)
    (l : List AppEvent) :
    (run_session st l).last_shiny_time = none ↔ ∀ ev ∈ l, ev.shiny = false := by
  induction l using List.reverseRecOn with
  | nil => simp [run_session, hst]
  | append_singleton l e ih =>
    rw [run_session_concat]
    by_cases h : e.shiny = true
    · have hstate : (apply_card_full (run_session st l) e).last_shiny_time
          = some e.now := by
        simp [apply_card_full, h]
      rw [hstate]
      constructor
      · intro hc
        exact absurd hc (Option.some_ne_none _)
      · intro hf
        exact absurd (hf e (by simp)) (by simp [h])
    · have hfalse : e.shiny = false := by simpa using h
      have hstate : (apply_card_full (run_session st l) e).last_shiny_time
          = (run_session st l).last_shiny_time := by
        simp [apply_card_full, hfalse]
      rw [hstate, ih]
      constructor
      · intro hf ev hev
        rcases List.mem_append.mp hev with hev | hev
        · exact hf ev hev
        · rw [List.mem_singleton.mp hev]
          exact hfalse
      · intro hf ev hev
        exact hf ev (List.mem_append.mpr (Or.inl hev))

/-- C4 (amended): `timeSinceLast` is `None` exactly while no shiny has been
recorded in the current session — `last_shiny_time` starts as `None` at
every start-up, whatever the loaded history says, because the stored
localized date and time are never parsed back. Once a session shiny set it,
the result is `now - t`, non-negative whenever `now ≥ t`. -/
theorem timeSinceLast_session_amended (dl : DiskDoc EncDoc)
    (ds : DiskDoc (List ShinyEntry)) (evs : List AppEvent) (now : Nat) :
    (timeSinceLast (run_session (init_viewer dl ds) evs) now = none
      ↔ ∀ ev ∈ evs, ev.shiny = false)
    ∧ ∀ t, (run_session (init_viewer dl ds) evs).last_shiny_time = some t →
        t ≤ now →
        timeSinceLast (run_session (init_viewer dl ds) evs) now
          = some ((now : Int) - t)
        ∧ 0 ≤ (now : Int) - t := by
  constructor
  · rw [← run_session_last_shiny (init_viewer dl ds) rfl evs]
    cases hl : (run_session (init_viewer dl ds) evs).last_shiny_time <;>
      simp [timeSinceLast, hl]
  · intro t ht hle
    refine ⟨by simp [timeSinceLast, ht], ?_⟩
    omega

/-- Witness for `timeSinceLast_session_amended`: one shiny applied at time 5,
queried at time 100. -/
theorem timeSinceLast_session_amended_witness :
    timeSinceLast
        (run_session (init_viewer DiskDoc.missing DiskDoc.missing)
          [⟨6, "#006", "Charizard", true, 5, "2:15 PM", "01/01/2024"⟩]) 100
      = some ((100 : Int) - 5)
    ∧ 0 ≤ (100 : Int) - 5 := by
  exact (timeSinceLast_session_amended DiskDoc.missing DiskDoc.missing
    [⟨6, "#006", "Charizard", true, 5, "2:15 PM", "01/01/2024"⟩] 100).2 5
    (by decide) (by decide)

/-- C4 (counterexample): immediately after a restart that loaded a non-empty
persisted shiny history, the history is non-empty yet `timeSinceLast` is
still `None` — no timestamp is reconstructed from the stored date and time. -/
theorem timeSinceLast_restart_counterexample :
    (init_viewer DiskDoc.missing
        (DiskDoc.parsed [⟨"#006", "Charizard", "2:15 PM", "01/01/2024"⟩])).shiny_history
      ≠ []
    ∧ timeSinceLast
        (init_viewer DiskDoc.missing
          (DiskDoc.parsed [⟨"#006", "Charizard", "2:15 PM", "01/01/2024"⟩]))
        1000000
      = none := by
  exact ⟨by simp [init_viewer, load_shiny_history], rfl⟩
